import Mathlib

/-!
Verification of the Block-Vote repository core against its specification.

Part 1: the on-chain voting ledger (`blockchain/contracts/VotingSystem.sol`),
embedded shallowly: each external function becomes a Lean function from the
contract state and the transaction sender to `Except VError VotingState`.
A revert is `Except.error`; since a reverted call leaves the chain state
untouched, only `Except.ok` results advance the state in the step relation.
-/

namespace BlockVote

/-- `struct Voter` of `VotingSystem.sol`.  A Solidity `mapping` read of an
unknown address yields the zero value, so the default record is all-false. -/
structure Voter where
  isRegistered : Bool
  hasVoted : Bool
  votedCandidateId : Nat
deriving Repr, DecidableEq

/-- The zero value of `Voter`, returned by the mapping for untouched keys. -/
def defVoter : Voter := ⟨false, false, 0⟩

/-- `struct Candidate` of `VotingSystem.sol`. -/
structure Candidate where
  name : String
  voteCount : Nat
deriving Repr, DecidableEq

/-- The contract storage of `VotingSystem`: `owner`, `voters`, `candidates`,
`votingOpen`.  Addresses are modelled as `Nat`; `voters` is total, mirroring
the Solidity mapping with zero-value default. -/
structure VotingState where
  owner : Nat
  voters : Nat → Voter
  candidates : List Candidate
  votingOpen : Bool

/-- Revert reasons of `VotingSystem.sol`, one per `require` message. -/
inductive VError where
  | OnlyOwner          -- "Only owner"
  | AlreadyRegistered  -- "Already registered"
  | NameRequired       -- "Name required"
  | AlreadyOpen        -- "Already open"
  | NoCandidates       -- "No candidates"
  | NotOpen            -- "Not open"
  | NotRegistered      -- "Not registered"
  | VotingClosed       -- "Voting is closed"
  | InvalidCandidate   -- "Invalid candidate"
  | AlreadyVoted       -- "Already voted"
deriving Repr, DecidableEq

/-- The constructor: `owner = msg.sender; votingOpen = false;` with all
storage at its zero value. -/
def initialState (deployer : Nat) : VotingState :=
  { owner := deployer
    voters := fun _ => defVoter
    candidates := []
    votingOpen := false }

/-- `registerVoter(address _voter)`: `onlyOwner`, requires the target not yet
registered, then sets `isRegistered` (other `Voter` fields untouched). -/
def registerVoter (s : VotingState) (sender target : Nat) : Except VError VotingState :=
  if sender ≠ s.owner then .error .OnlyOwner
  else if (s.voters target).isRegistered then .error .AlreadyRegistered
  else .ok { s with
    voters := fun a => if a = target then { s.voters target with isRegistered := true }
                       else s.voters a }

/-- `registerSelf()`: same effect as `registerVoter` but for `msg.sender`,
with no owner check. -/
def registerSelf (s : VotingState) (sender : Nat) : Except VError VotingState :=
  if (s.voters sender).isRegistered then .error .AlreadyRegistered
  else .ok { s with
    voters := fun a => if a = sender then { s.voters sender with isRegistered := true }
                       else s.voters a }

/-- `addCandidate(string _name)`: `onlyOwner`, requires a non-empty name,
appends a candidate with `voteCount = 0`. -/
def addCandidate (s : VotingState) (sender : Nat) (nm : String) : Except VError VotingState :=
  if sender ≠ s.owner then .error .OnlyOwner
  else if nm.length = 0 then .error .NameRequired
  else .ok { s with candidates := s.candidates ++ [⟨nm, 0⟩] }

/-- `openVoting()`: `onlyOwner`, requires not already open and at least one
candidate. -/
def openVoting (s : VotingState) (sender : Nat) : Except VError VotingState :=
  if sender ≠ s.owner then .error .OnlyOwner
  else if s.votingOpen then .error .AlreadyOpen
  else if s.candidates.length = 0 then .error .NoCandidates
  else .ok { s with votingOpen := true }

/-- `closeVoting()`: `onlyOwner`, requires currently open. -/
def closeVoting (s : VotingState) (sender : Nat) : Except VError VotingState :=
  if sender ≠ s.owner then .error .OnlyOwner
  else if ¬ s.votingOpen then .error .NotOpen
  else .ok { s with votingOpen := false }

/-- `candidates[cid].voteCount += 1` on a list, leaving everything else as is. -/
def incVote : List Candidate → Nat → List Candidate
  | [], _ => []
  | c :: cs, 0 => { c with voteCount := c.voteCount + 1 } :: cs
  | c :: cs, n + 1 => c :: incVote cs n

/-- `castVote(uint256 _candidateId)`.  Check order is exactly the source's:
the `onlyRegistered` modifier, then the `whenVotingOpen` modifier, then
`require(_candidateId < candidates.length)`, then `require(!v.hasVoted)`.
On success both voter-record updates and the count increment happen in the
single returned state (the transaction is atomic). -/
def castVote (s : VotingState) (sender cid : Nat) : Except VError VotingState :=
  if ¬ (s.voters sender).isRegistered then .error .NotRegistered
  else if ¬ s.votingOpen then .error .VotingClosed
  else if ¬ cid < s.candidates.length then .error .InvalidCandidate
  else if (s.voters sender).hasVoted then .error .AlreadyVoted
  else .ok { s with
    voters := fun a => if a = sender then
        { s.voters sender with hasVoted := true, votedCandidateId := cid }
      else s.voters a
    candidates := incVote s.candidates cid }

/-- One transaction against the ledger, tagged with its sender. -/
inductive Op where
  | registerVoter (sender target : Nat)
  | addCandidate (sender : Nat) (nm : String)
  | openVoting (sender : Nat)
  | closeVoting (sender : Nat)
  | registerSelf (sender : Nat)
  | castVote (sender cid : Nat)

/-- Dispatch a transaction to the corresponding contract function. -/
def applyOp (s : VotingState) : Op → Except VError VotingState
  | .registerVoter sender target => registerVoter s sender target
  | .addCandidate sender nm => addCandidate s sender nm
  | .openVoting sender => openVoting s sender
  | .closeVoting sender => closeVoting s sender
  | .registerSelf sender => registerSelf s sender
  | .castVote sender cid => castVote s sender cid

/-- States reachable from deployment by any sequence of successful
transactions (reverted transactions leave the state unchanged, so they need
no step). -/
inductive Reachable : VotingState → Prop where
  | init (deployer : Nat) : Reachable (initialState deployer)
  | step {s s' : VotingState} (op : Op) :
      Reachable s → applyOp s op = .ok s' → Reachable s'

/-- Reachability from a given state by successful transactions. -/
inductive ReachableFrom : VotingState → VotingState → Prop where
  | refl (s : VotingState) : ReachableFrom s s
  | step {s t t' : VotingState} (op : Op) :
      ReachableFrom s t → applyOp t op = .ok t' → ReachableFrom s t'

/-! ### A concrete execution, used to instantiate the theorems below.

Deployer/owner is address `0`, the voter is address `5`.  The owner adds
candidate "Alice" and opens voting; the voter self-registers and votes for
candidate `0`; finally the owner closes voting. -/

/-- State after `addCandidate(0, "Alice")` from deployment by `0`. -/
def demoS1 : VotingState :=
  { initialState 0 with candidates := [{ name := "Alice", voteCount := 0 }] }

/-- State after `openVoting()`. -/
def demoS2 : VotingState := { demoS1 with votingOpen := true }

/-- State after `registerSelf()` from address `5`. -/
def demoS3 : VotingState :=
  { demoS2 with voters := fun a => if a = 5 then ⟨true, false, 0⟩ else demoS2.voters a }

/-- State after `castVote(0)` from address `5`. -/
def demoS4 : VotingState :=
  { demoS3 with
    voters := fun a => if a = 5 then ⟨true, true, 0⟩ else demoS3.voters a
    candidates := [{ name := "Alice", voteCount := 1 }] }

/-- State after `closeVoting()`. -/
def demoS5 : VotingState := { demoS4 with votingOpen := false }

lemma demoS1_reach : Reachable demoS1 :=
  .step (.addCandidate 0 "Alice") (.init 0) rfl

lemma demoS2_reach : Reachable demoS2 :=
  .step (.openVoting 0) demoS1_reach rfl

lemma demoS3_reach : Reachable demoS3 :=
  .step (.registerSelf 5) demoS2_reach rfl

lemma demoS4_reach : Reachable demoS4 :=
  .step (.castVote 5 0) demoS3_reach rfl

lemma demoS5_reach : Reachable demoS5 :=
  .step (.closeVoting 0) demoS4_reach rfl

/-! ### Properties of `incVote` -/

lemma incVote_length (cs : List Candidate) (cid : Nat) :
    (incVote cs cid).length = cs.length := by
  induction cs generalizing cid with
  | nil => rfl
  | cons c cs ih => cases cid with
    | zero => rfl
    | succ n => simpa [incVote] using ih n

lemma incVote_get_self (cs : List Candidate) (cid : Nat) :
    (incVote cs cid)[cid]? =
      (cs[cid]?).map (fun c => { c with voteCount := c.voteCount + 1 }) := by
  induction cs generalizing cid with
  | nil => simp [incVote]
  | cons c cs ih => cases cid with
    | zero => simp [incVote]
    | succ n => simpa [incVote] using ih n

lemma incVote_get_other (cs : List Candidate) {j cid : Nat} (h : j ≠ cid) :
    (incVote cs cid)[j]? = cs[j]? := by
  induction cs generalizing cid j with
  | nil => simp [incVote]
  | cons c cs ih => cases cid with
    | zero =>
      cases j with
      | zero => exact absurd rfl h
      | succ m => simp [incVote]
    | succ n =>
      cases j with
      | zero => simp [incVote]
      | succ m => simpa [incVote] using ih (fun hc => h (by simpa using hc))

/-! ### Inversion of `castVote` -/

/-- A successful `castVote` implies all four preconditions and pins down the
resulting state completely. -/
lemma castVote_ok_elim {s : VotingState} {sender cid : Nat} {s' : VotingState}
    (h : castVote s sender cid = .ok s') :
    (s.voters sender).isRegistered = true ∧ s.votingOpen = true ∧
      (s.voters sender).hasVoted = false ∧ cid < s.candidates.length ∧
      s' = { s with
        voters := fun a => if a = sender then
            { s.voters sender with hasVoted := true, votedCandidateId := cid }
          else s.voters a
        candidates := incVote s.candidates cid } := by
  unfold castVote at h
  split at h
  case isTrue => exact absurd h (by simp)
  case isFalse hR =>
    split at h
    case isTrue => exact absurd h (by simp)
    case isFalse hO =>
      split at h
      case isTrue => exact absurd h (by simp)
      case isFalse hB =>
        split at h
        case isTrue => exact absurd h (by simp)
        case isFalse hV =>
          cases h
          exact ⟨by simpa using hR, by simpa using hO,
            by simpa using Bool.of_not_eq_true hV, by simpa using hB, rfl⟩

/-- When all four preconditions hold, `castVote` succeeds with the expected
state. -/
lemma castVote_ok_intro {s : VotingState} {sender cid : Nat}
    (hR : (s.voters sender).isRegistered = true) (hO : s.votingOpen = true)
    (hV : (s.voters sender).hasVoted = false) (hB : cid < s.candidates.length) :
    castVote s sender cid = .ok { s with
      voters := fun a => if a = sender then
          { s.voters sender with hasVoted := true, votedCandidateId := cid }
        else s.voters a
      candidates := incVote s.candidates cid } := by
  simp [castVote, hR, hO, hV, hB]

/-- **C1 (counterexample).** The claim attributes the revert `AlreadyVoted`
to a caller who has already voted, but the contract checks
`_candidateId < candidates.length` first: in the reachable state `demoS4`
(voting open, address `5` registered and already voted, exactly one
candidate), `castVote(1)` from `5` reverts `InvalidCandidate`, not
`AlreadyVoted`. -/
theorem c1_castVote_counterexample :
    Reachable demoS4 ∧
      (demoS4.voters 5).isRegistered = true ∧ demoS4.votingOpen = true ∧
      (demoS4.voters 5).hasVoted = true ∧
      castVote demoS4 5 1 = .error VError.InvalidCandidate ∧
      VError.InvalidCandidate ≠ VError.AlreadyVoted :=
  ⟨demoS4_reach, rfl, rfl, rfl, rfl, by decide⟩

/-- **C1 (amended).** `castVote(candidateId)` succeeds iff the caller is
registered, voting is open, the caller has not yet voted, and `candidateId`
is in bounds.  On success, the single returned state has the caller's
`hasVoted` flag set, `votedCandidateId` recorded, and exactly that
candidate's `voteCount` incremented by exactly one, with every other voter
and candidate unchanged — both updates appear in the one post-state, so no
state with only one of them is observable.  On failure the revert reason is
`NotRegistered`, then `VotingClosed`, then `InvalidCandidate`, then
`AlreadyVoted`, in the contract's check order: the bounds check precedes
the already-voted check. -/
theorem c1_castVote_spec (s : VotingState) (sender cid : Nat) :
    ((∃ s', castVote s sender cid = .ok s') ↔
        ((s.voters sender).isRegistered = true ∧ s.votingOpen = true ∧
          (s.voters sender).hasVoted = false ∧ cid < s.candidates.length)) ∧
    (∀ s', castVote s sender cid = .ok s' →
        (s'.voters sender).hasVoted = true ∧
        (s'.voters sender).votedCandidateId = cid ∧
        (s'.voters sender).isRegistered = (s.voters sender).isRegistered ∧
        s'.candidates[cid]? =
          (s.candidates[cid]?).map (fun c => { c with voteCount := c.voteCount + 1 }) ∧
        (∀ j, j ≠ cid → s'.candidates[j]? = s.candidates[j]?) ∧
        (∀ a, a ≠ sender → s'.voters a = s.voters a) ∧
        s'.candidates.length = s.candidates.length ∧
        s'.votingOpen = s.votingOpen ∧ s'.owner = s.owner) ∧
    ((s.voters sender).isRegistered = false →
        castVote s sender cid = .error VError.NotRegistered) ∧
    ((s.voters sender).isRegistered = true → s.votingOpen = false →
        castVote s sender cid = .error VError.VotingClosed) ∧
    ((s.voters sender).isRegistered = true → s.votingOpen = true →
        ¬ cid < s.candidates.length →
        castVote s sender cid = .error VError.InvalidCandidate) ∧
    ((s.voters sender).isRegistered = true → s.votingOpen = true →
        cid < s.candidates.length → (s.voters sender).hasVoted = true →
        castVote s sender cid = .error VError.AlreadyVoted) := by
  refine ⟨⟨?_, ?_⟩, ?_, ?_, ?_, ?_, ?_⟩
  · rintro ⟨s', h⟩
    obtain ⟨hR, hO, hV, hB, -⟩ := castVote_ok_elim h
    exact ⟨hR, hO, hV, hB⟩
  · rintro ⟨hR, hO, hV, hB⟩
    exact ⟨_, castVote_ok_intro hR hO hV hB⟩
  · intro s' h
    obtain ⟨hR, -, -, -, rfl⟩ := castVote_ok_elim h
    refine ⟨by simp, by simp, by simp [hR], incVote_get_self _ _,
      fun j hj => incVote_get_other _ hj, fun a ha => by simp [ha],
      incVote_length _ _, rfl, rfl⟩
  · intro hR
    simp [castVote, hR]
  · intro hR hO
    simp [castVote, hR, hO]
  · intro hR hO hB
    simp [castVote, hR, hO, hB]
  · intro hR hO hB hV
    simp [castVote, hR, hO, hB, hV]

/-- **C1 (witness).** The amended specification instantiated on the concrete
run: the vote of address `5` in `demoS3` sets its flags and bumps Alice's
count, and the out-of-range call in `demoS4` reverts `InvalidCandidate`. -/
theorem c1_castVote_spec_witness :
    ((demoS4.voters 5).hasVoted = true ∧
      (demoS4.voters 5).votedCandidateId = 0 ∧
      demoS4.candidates[0]? = some { name := "Alice", voteCount := 1 }) ∧
      castVote demoS4 5 1 = .error VError.InvalidCandidate :=
  ⟨⟨((c1_castVote_spec demoS3 5 0).2.1 demoS4 rfl).1,
    ((c1_castVote_spec demoS3 5 0).2.1 demoS4 rfl).2.1,
    by
      have h := ((c1_castVote_spec demoS3 5 0).2.1 demoS4 rfl).2.2.2.1
      simpa using h⟩,
    (c1_castVote_spec demoS4 5 1).2.2.2.2.1 rfl rfl (by decide)⟩

/-! ### Inversion of the remaining operations -/

lemma registerVoter_ok_elim {s : VotingState} {sender target : Nat} {s' : VotingState}
    (h : registerVoter s sender target = .ok s') :
    sender = s.owner ∧ (s.voters target).isRegistered = false ∧
      s' = { s with voters := fun a => if a = target then
          { s.voters target with isRegistered := true } else s.voters a } := by
  unfold registerVoter at h
  split at h
  case isTrue => exact absurd h (by simp)
  case isFalse hOwn =>
    split at h
    case isTrue => exact absurd h (by simp)
    case isFalse hReg =>
      cases h
      exact ⟨by simpa using hOwn, by simpa using Bool.of_not_eq_true hReg, rfl⟩

lemma registerSelf_ok_elim {s : VotingState} {sender : Nat} {s' : VotingState}
    (h : registerSelf s sender = .ok s') :
    (s.voters sender).isRegistered = false ∧
      s' = { s with voters := fun a => if a = sender then
          { s.voters sender with isRegistered := true } else s.voters a } := by
  unfold registerSelf at h
  split at h
  case isTrue => exact absurd h (by simp)
  case isFalse hReg =>
    cases h
    exact ⟨by simpa using Bool.of_not_eq_true hReg, rfl⟩

lemma addCandidate_ok_elim {s : VotingState} {sender : Nat} {nm : String} {s' : VotingState}
    (h : addCandidate s sender nm = .ok s') :
    sender = s.owner ∧ nm.length ≠ 0 ∧
      s' = { s with candidates := s.candidates ++ [⟨nm, 0⟩] } := by
  unfold addCandidate at h
  split at h
  case isTrue => exact absurd h (by simp)
  case isFalse hOwn =>
    split at h
    case isTrue => exact absurd h (by simp)
    case isFalse hLen =>
      cases h
      exact ⟨by simpa using hOwn, hLen, rfl⟩

lemma openVoting_ok_elim {s : VotingState} {sender : Nat} {s' : VotingState}
    (h : openVoting s sender = .ok s') :
    sender = s.owner ∧ s.votingOpen = false ∧ s.candidates.length ≠ 0 ∧
      s' = { s with votingOpen := true } := by
  unfold openVoting at h
  split at h
  case isTrue => exact absurd h (by simp)
  case isFalse hOwn =>
    split at h
    case isTrue => exact absurd h (by simp)
    case isFalse hOpen =>
      split at h
      case isTrue => exact absurd h (by simp)
      case isFalse hLen =>
        cases h
        exact ⟨by simpa using hOwn, by simpa using Bool.of_not_eq_true hOpen, hLen, rfl⟩

lemma closeVoting_ok_elim {s : VotingState} {sender : Nat} {s' : VotingState}
    (h : closeVoting s sender = .ok s') :
    sender = s.owner ∧ s.votingOpen = true ∧
      s' = { s with votingOpen := false } := by
  unfold closeVoting at h
  split at h
  case isTrue => exact absurd h (by simp)
  case isFalse hOwn =>
    split at h
    case isTrue => exact absurd h (by simp)
    case isFalse hOpen =>
      cases h
      exact ⟨by simpa using hOwn, by simpa using hOpen, rfl⟩

/-! ### One-way flags: `hasVoted` and `isRegistered` never revert to `false` -/

lemma step_preserves_flags {s s' : VotingState} {op : Op}
    (h : applyOp s op = .ok s') (a : Nat) :
    ((s.voters a).hasVoted = true → (s'.voters a).hasVoted = true) ∧
    ((s.voters a).isRegistered = true → (s'.voters a).isRegistered = true) := by
  cases op with
  | registerVoter sender target =>
    obtain ⟨-, -, rfl⟩ := registerVoter_ok_elim h
    by_cases hat : a = target <;> simp [hat]
  | addCandidate sender nm =>
    obtain ⟨-, -, rfl⟩ := addCandidate_ok_elim h
    simp
  | openVoting sender =>
    obtain ⟨-, -, -, rfl⟩ := openVoting_ok_elim h
    simp
  | closeVoting sender =>
    obtain ⟨-, -, rfl⟩ := closeVoting_ok_elim h
    simp
  | registerSelf sender =>
    obtain ⟨-, rfl⟩ := registerSelf_ok_elim h
    by_cases hat : a = sender <;> simp [hat]
  | castVote sender cid =>
    obtain ⟨hR, -, -, -, rfl⟩ := castVote_ok_elim h
    by_cases hat : a = sender <;> simp [hat, hR]

lemma reachableFrom_preserves_flags {s t : VotingState} (h : ReachableFrom s t) (a : Nat) :
    ((s.voters a).hasVoted = true → (t.voters a).hasVoted = true) ∧
    ((s.voters a).isRegistered = true → (t.voters a).isRegistered = true) := by
  induction h with
  | refl => exact ⟨id, id⟩
  | step op hr hok ih =>
    exact ⟨fun hv => (step_preserves_flags hok a).1 (ih.1 hv),
      fun hg => (step_preserves_flags hok a).2 (ih.2 hg)⟩

/-- **C2.** In every reachable ledger state, a voter who has voted is
registered: `castVote` is guarded by `onlyRegistered` and no operation ever
clears `isRegistered` or sets `hasVoted` without it. -/
theorem c2_hasVoted_implies_isRegistered (s : VotingState) (h : Reachable s) :
    ∀ a : Nat, (s.voters a).hasVoted = true → (s.voters a).isRegistered = true := by
  induction h with
  | init deployer => intro a ha; simp [initialState, defVoter] at ha
  | step op hr hok ih =>
    rename_i s s'
    intro a ha
    cases op with
    | registerVoter sender target =>
      obtain ⟨-, -, rfl⟩ := registerVoter_ok_elim hok
      by_cases hat : a = target
      · simp [hat]
      · simp only [hat, if_neg hat] at ha ⊢
        exact ih a ha
    | addCandidate sender nm =>
      obtain ⟨-, -, rfl⟩ := addCandidate_ok_elim hok
      exact ih a ha
    | openVoting sender =>
      obtain ⟨-, -, -, rfl⟩ := openVoting_ok_elim hok
      exact ih a ha
    | closeVoting sender =>
      obtain ⟨-, -, rfl⟩ := closeVoting_ok_elim hok
      exact ih a ha
    | registerSelf sender =>
      obtain ⟨-, rfl⟩ := registerSelf_ok_elim hok
      by_cases hat : a = sender
      · simp [hat]
      · simp only [hat, if_neg hat] at ha ⊢
        exact ih a ha
    | castVote sender cid =>
      obtain ⟨hR, -, -, -, rfl⟩ := castVote_ok_elim hok
      by_cases hat : a = sender
      · simpa [hat] using hR
      · simp only [hat, if_neg hat] at ha ⊢
        exact ih a ha

/-- **C2 (witness).** Applied to the concrete reachable state `demoS4`, in
which address `5` has voted. -/
theorem c2_hasVoted_implies_isRegistered_witness :
    (demoS4.voters 5).isRegistered = true :=
  c2_hasVoted_implies_isRegistered demoS4 demoS4_reach 5 rfl

/-- **C3 (counterexample).** The claim says every `castVote` from `a` after
its first successful one reverts `AlreadyVoted`, but if the owner has since
closed voting the `whenVotingOpen` modifier fires first: in the concrete
run, `5` votes successfully in `demoS3`, voting is then closed (`demoS5`),
and the repeated `castVote` from `5` reverts `VotingClosed`. -/
theorem c3_counterexample :
    castVote demoS3 5 0 = .ok demoS4 ∧
      applyOp demoS4 (Op.closeVoting 0) = .ok demoS5 ∧
      (demoS5.voters 5).hasVoted = true ∧
      castVote demoS5 5 0 = .error VError.VotingClosed ∧
      VError.VotingClosed ≠ VError.AlreadyVoted :=
  ⟨rfl, rfl, rfl, rfl, by decide⟩

/-- **C3 (amended).** After a successful `castVote` from address `a`, no
later `castVote` from `a` ever succeeds (so at most one succeeds, and a
reverted call leaves the ledger unchanged, errors producing no successor
state).  The revert reason is `AlreadyVoted` exactly when voting is open
and the candidate id is in bounds; when voting is closed the earlier
`whenVotingOpen` check reverts `VotingClosed` instead. -/
theorem c3_at_most_one_vote {s s' t : VotingState} {a cid : Nat}
    (hok : castVote s a cid = .ok s') (ht : ReachableFrom s' t) :
    (∀ cid2 u, castVote t a cid2 ≠ .ok u) ∧
    (∀ cid2, t.votingOpen = true → cid2 < t.candidates.length →
        castVote t a cid2 = .error VError.AlreadyVoted) ∧
    (t.votingOpen = false → ∀ cid2, castVote t a cid2 = .error VError.VotingClosed) := by
  obtain ⟨hR, -, -, -, rfl⟩ := castVote_ok_elim hok
  have hv : (t.voters a).hasVoted = true :=
    (reachableFrom_preserves_flags ht a).1 (by simp)
  have hr : (t.voters a).isRegistered = true :=
    (reachableFrom_preserves_flags ht a).2 (by simp [hR])
  refine ⟨?_, ?_, ?_⟩
  · intro cid2 u hu
    obtain ⟨-, -, hvf, -, -⟩ := castVote_ok_elim hu
    rw [hv] at hvf
    exact Bool.noConfusion hvf
  · intro cid2 hopen hlt
    simp [castVote, hr, hopen, hlt, hv]
  · intro hclosed cid2
    simp [castVote, hr, hclosed]

/-- **C3 (witness).** In the concrete run: immediately after the successful
vote the repeat call reverts `AlreadyVoted`; after closing, it reverts
`VotingClosed`. -/
theorem c3_at_most_one_vote_witness :
    castVote demoS4 5 0 = .error VError.AlreadyVoted ∧
      castVote demoS5 5 0 = .error VError.VotingClosed :=
  ⟨(c3_at_most_one_vote (rfl : castVote demoS3 5 0 = Except.ok demoS4)
      (ReachableFrom.refl demoS4)).2.1 0 rfl (by decide),
    (c3_at_most_one_vote (rfl : castVote demoS3 5 0 = Except.ok demoS4)
      (ReachableFrom.step (.closeVoting 0) (ReachableFrom.refl demoS4) rfl)).2.2 rfl 0⟩

/-! ### Tally conservation (C10) -/

/-- Total number of votes recorded across all candidates. -/
def sumVotes (cs : List Candidate) : Nat := (cs.map Candidate.voteCount).sum

lemma sumVotes_incVote {cs : List Candidate} {cid : Nat} (h : cid < cs.length) :
    sumVotes (incVote cs cid) = sumVotes cs + 1 := by
  induction cs generalizing cid with
  | nil => simp at h
  | cons c cs ih =>
    cases cid with
    | zero => simp [incVote, sumVotes]; omega
    | succ n =>
      have hn : n < cs.length := by simpa using h
      have := ih hn
      simp [incVote, sumVotes] at this ⊢
      omega

lemma tally_aux (s : VotingState) (h : Reachable s) :
    ∃ S : Finset Nat, (∀ a, (s.voters a).hasVoted = true ↔ a ∈ S) ∧
      sumVotes s.candidates = S.card := by
  induction h with
  | init deployer =>
    exact ⟨∅, fun a => by simp [initialState, defVoter], by simp [initialState, sumVotes]⟩
  | step op hr hok ih =>
    rename_i s s'
    obtain ⟨S, hS, hsum⟩ := ih
    cases op with
    | registerVoter sender target =>
      obtain ⟨-, -, rfl⟩ := registerVoter_ok_elim hok
      refine ⟨S, fun a => ?_, hsum⟩
      by_cases hat : a = target
      · subst hat; simpa using hS a
      · simpa [hat] using hS a
    | addCandidate sender nm =>
      obtain ⟨-, -, rfl⟩ := addCandidate_ok_elim hok
      exact ⟨S, hS, by simpa [sumVotes] using hsum⟩
    | openVoting sender =>
      obtain ⟨-, -, -, rfl⟩ := openVoting_ok_elim hok
      exact ⟨S, hS, hsum⟩
    | closeVoting sender =>
      obtain ⟨-, -, rfl⟩ := closeVoting_ok_elim hok
      exact ⟨S, hS, hsum⟩
    | registerSelf sender =>
      obtain ⟨-, rfl⟩ := registerSelf_ok_elim hok
      refine ⟨S, fun a => ?_, hsum⟩
      by_cases hat : a = sender
      · subst hat; simpa using hS a
      · simpa [hat] using hS a
    | castVote sender cid =>
      obtain ⟨-, -, hV, hB, rfl⟩ := castVote_ok_elim hok
      have hnot : sender ∉ S := fun hmem => by
        have := (hS sender).mpr hmem
        rw [hV] at this
        exact Bool.noConfusion this
      refine ⟨insert sender S, fun a => ?_, ?_⟩
      · by_cases hat : a = sender
        · subst hat; simp
        · simp [hat, hS a]
      · simp only [sumVotes_incVote hB, Finset.card_insert_of_not_mem hnot, hsum]

/-- **C10.** In every reachable ledger state, the sum of `voteCount` over all
candidates equals the number of distinct addresses whose `hasVoted` flag is
set: `addCandidate` appends with `voteCount = 0`, `castVote` increments one
count while setting one fresh `hasVoted` flag, and the other operations
touch neither. -/
theorem c10_tally_conservation (s : VotingState) (h : Reachable s) :
    sumVotes s.candidates = Set.ncard {a : Nat | (s.voters a).hasVoted = true} := by
  obtain ⟨S, hS, hsum⟩ := tally_aux s h
  have hset : {a : Nat | (s.voters a).hasVoted = true} = (S : Set Nat) := by
    ext a
    simpa using hS a
  rw [hset, Set.ncard_coe_Finset]
  exact hsum

/-- **C10 (witness).** At the concrete reachable state `demoS4` (one vote
cast), the tally equation holds. -/
theorem c10_tally_conservation_witness :
    sumVotes demoS4.candidates = Set.ncard {a : Nat | (demoS4.voters a).hasVoted = true} :=
  c10_tally_conservation demoS4 demoS4_reach

/-!
Part 2: the One-Time-Passcode Gate (`src/models/OTP.js`).

The `otp_codes` table is a list of rows in insertion order; timestamps are
`Nat`.  `createOTP` takes the freshly generated code as a parameter (the
source draws it at random) together with the configured expiry window.
`new Date()` comparisons (`expiresAt > now`) are strict, as in the Sequelize
`Op.gt` condition.
-/

/-- JavaScript's `toLowerCase()`: each character mapped to lower case (the
same per-character mapping as Lean's `String.toLower`, written structurally
over the character list so that concrete instances evaluate). -/
def lowerStr (s : String) : String := ⟨s.data.map Char.toLower⟩

/-- One row of the `otp_codes` table. -/
structure OtpRec where
  email : String
  code : String
  otype : String
  expiresAt : Nat
  isUsed : Bool
  createdAt : Nat
deriving Repr, DecidableEq

/-- `isUsed: false, expiresAt: { Op.gt: new Date() }` — the row is unused and
unexpired at time `now`. -/
def otpLive (r : OtpRec) (now : Nat) : Bool :=
  !r.isUsed && decide (now < r.expiresAt)

/-- Rows hit by `createOTP`'s invalidating `update`: same lowercased email,
same type, unused, unexpired. -/
def otpMatchesPair (r : OtpRec) (email otype : String) (now : Nat) : Bool :=
  decide (r.email = lowerStr email) && decide (r.otype = otype) && otpLive r now

/-- Rows hit by `verifyOTP`'s `findOne`: additionally the submitted code. -/
def otpMatchesCode (r : OtpRec) (email code otype : String) (now : Nat) : Bool :=
  otpMatchesPair r email otype now && decide (r.code = code)

/-- The row inserted by `OTP.createOTP`. -/
def newOtpRow (email otype code : String) (now expiry : Nat) : OtpRec :=
  { email := lowerStr email, code := code, otype := otype,
    expiresAt := now + expiry, isUsed := false, createdAt := now }

/-- `OTP.createOTP`: mark every unused, unexpired row for the same
(lowercased email, type) as used, then insert the new row with expiry
`now + expiry`. -/
def createOTP (store : List OtpRec) (email otype code : String) (now expiry : Nat) :
    List OtpRec :=
  (store.map fun r => if otpMatchesPair r email otype now then { r with isUsed := true } else r)
    ++ [newOtpRow email otype code now expiry]

/-- `findOne(..., order: createdAt DESC)`: the index and row of the matching
row with the greatest `createdAt` (later row preferred on ties). -/
def findBest (pred : OtpRec → Bool) : List OtpRec → Option (Nat × OtpRec)
  | [] => none
  | r :: rs =>
    match findBest pred rs with
    | none => if pred r then some (0, r) else none
    | some (j, q) =>
      if pred r then
        if q.createdAt < r.createdAt then some (0, r) else some (j + 1, q)
      else some (j + 1, q)

/-- Outcome of `OTP.verifyOTP` as seen by its callers. -/
structure VerifyResult where
  valid : Bool
  message : String
deriving Repr, DecidableEq

/-- The one failure result: `{ valid: false, message: 'Invalid or expired OTP' }`. -/
def invalidOtpResult : VerifyResult := ⟨false, "Invalid or expired OTP"⟩

/-- The success result (the source returns the row itself, no message). -/
def validOtpResult : VerifyResult := ⟨true, ""⟩

/-- `OTP.verifyOTP`: look up the most recent unused, unexpired row matching
email+code+type; on a hit mark it used and succeed, otherwise return the
generic failure with the store untouched. -/
def verifyOTP (store : List OtpRec) (email code otype : String) (now : Nat) :
    VerifyResult × List OtpRec :=
  match findBest (fun r => otpMatchesCode r email code otype now) store with
  | none => (invalidOtpResult, store)
  | some (i, r) => (validOtpResult, store.set i { r with isUsed := true })

/-- Operations touching the `otp_codes` table. -/
inductive OtpOp where
  | create (email otype code : String) (expiry : Nat)
  | verify (email code otype : String)

def applyOtpOp (store : List OtpRec) (now : Nat) : OtpOp → List OtpRec
  | .create e ty c exp => createOTP store e ty c now exp
  | .verify e c ty => (verifyOTP store e c ty now).2

/-- `OtpReach store now`: the table contents `store` are producible by some
sequence of `createOTP`/`verifyOTP` calls at nondecreasing times, the last
no later than `now`.  (`tick` lets the clock advance between calls.) -/
inductive OtpReach : List OtpRec → Nat → Prop where
  | init (t : Nat) : OtpReach [] t
  | step {store : List OtpRec} {t t' : Nat} (op : OtpOp) :
      OtpReach store t → t ≤ t' → OtpReach (applyOtpOp store t' op) t'
  | tick {store : List OtpRec} {t t' : Nat} :
      OtpReach store t → t ≤ t' → OtpReach store t'

/-- Unused-unexpired rows for a (stored email, type) pair at time `now`. -/
def pairPred (e ty : String) (now : Nat) (r : OtpRec) : Bool :=
  decide (r.email = e) && decide (r.otype = ty) && otpLive r now

/-! ### Basic facts about `findBest`, `verifyOTP` and row counting -/

lemma findBest_some {pred : OtpRec → Bool} :
    ∀ {l : List OtpRec} {i : Nat} {r : OtpRec}, findBest pred l = some (i, r) →
      l[i]? = some r ∧ pred r = true := by
  intro l
  induction l with
  | nil => intro i r h; simp [findBest] at h
  | cons x xs ih =>
    intro i r h
    rw [findBest] at h
    split at h
    · split at h
      · cases h
        exact ⟨by simp, by assumption⟩
      · simp at h
    · next j q heq =>
      obtain ⟨hq1, hq2⟩ := ih heq
      split at h
      · split at h
        · cases h
          exact ⟨by simp, by assumption⟩
        · cases h
          exact ⟨by simpa using hq1, hq2⟩
      · cases h
        exact ⟨by simpa using hq1, hq2⟩

lemma findBest_none {pred : OtpRec → Bool} :
    ∀ {l : List OtpRec}, findBest pred l = none ↔ ∀ r ∈ l, pred r = false := by
  intro l
  induction l with
  | nil => simp [findBest]
  | cons x xs ih =>
    constructor
    · intro h
      rw [findBest] at h
      split at h
      · next heq =>
        split at h
        · simp at h
        · next hpx =>
          intro r hr
          rcases List.mem_cons.mp hr with rfl | hr2
          · exact Bool.of_not_eq_true hpx
          · exact (ih.mp heq) r hr2
      · split at h
        · split at h <;> simp at h
        · simp at h
    · intro h
      rw [findBest]
      have hxs : findBest pred xs = none :=
        ih.mpr (fun r hr => h r (List.mem_cons_of_mem x hr))
      split
      · simp [h x (List.mem_cons_self x xs)]
      · next j q heq =>
        rw [hxs] at heq
        simp at heq

/-- `verifyOTP` succeeds exactly when some unused, unexpired row matches
email, code and type. -/
lemma verifyOTP_valid_iff (store : List OtpRec) (email code otype : String) (now : Nat) :
    (verifyOTP store email code otype now).1.valid = true ↔
      ∃ r ∈ store, otpMatchesCode r email code otype now = true := by
  unfold verifyOTP
  cases h : findBest (fun r => otpMatchesCode r email code otype now) store with
  | none =>
    simp only [invalidOtpResult]
    constructor
    · intro hc; exact absurd hc (by simp)
    · rintro ⟨r, hmem, hr⟩
      exact absurd hr (by simp [findBest_none.mp h r hmem])
  | some p =>
    obtain ⟨i, r⟩ := p
    obtain ⟨h1, h2⟩ := findBest_some h
    simp only [validOtpResult]
    exact ⟨fun _ => ⟨r, List.mem_iff_getElem?.mpr ⟨i, h1⟩, h2⟩, fun _ => trivial⟩

lemma one_le_countP {l : List OtpRec} {p : OtpRec → Bool} {i : Nat} {a : OtpRec}
    (h : l[i]? = some a) (hp : p a = true) : 1 ≤ l.countP p :=
  List.countP_pos_iff.mpr ⟨a, List.mem_iff_getElem?.mpr ⟨i, h⟩, hp⟩

lemma two_le_countP {p : OtpRec → Bool} :
    ∀ {l : List OtpRec} {i j : Nat} {a b : OtpRec}, i ≠ j →
      l[i]? = some a → l[j]? = some b → p a = true → p b = true →
      2 ≤ l.countP p := by
  intro l
  induction l with
  | nil => intro i j a b _ ha _ _ _; simp at ha
  | cons x xs ih =>
    intro i j a b hij ha hb hpa hpb
    cases i with
    | zero =>
      cases j with
      | zero => exact absurd rfl hij
      | succ m =>
        rw [List.getElem?_cons_zero] at ha
        injection ha with ha'
        subst ha'
        rw [List.getElem?_cons_succ] at hb
        have h1 := one_le_countP hb hpb
        rw [List.countP_cons, if_pos hpa]
        omega
    | succ n =>
      cases j with
      | zero =>
        rw [List.getElem?_cons_zero] at hb
        injection hb with hb'
        subst hb'
        rw [List.getElem?_cons_succ] at ha
        have h1 := one_le_countP ha hpa
        rw [List.countP_cons, if_pos hpb]
        omega
      | succ m =>
        rw [List.getElem?_cons_succ] at ha hb
        have h2 := ih (fun hc => hij (by simp [hc])) ha hb hpa hpb
        calc 2 ≤ xs.countP p := h2
        _ ≤ (x :: xs).countP p := by
          rw [List.countP_cons]
          exact Nat.le_add_right _ _

lemma countP_set_le {p : OtpRec → Bool} {x : OtpRec} (hx : p x = false) :
    ∀ (l : List OtpRec) (i : Nat), (l.set i x).countP p ≤ l.countP p := by
  intro l
  induction l with
  | nil => intro i; simp
  | cons y ys ih =>
    intro i
    cases i with
    | zero =>
      simp only [List.set_cons_zero, List.countP_cons, hx]
      simp
    | succ n =>
      simp only [List.set_cons_succ, List.countP_cons]
      exact Nat.add_le_add_right (ih n) _

/-! ### Time monotonicity of liveness -/

lemma otpLive_mono {r : OtpRec} {t t' : Nat} (h : t ≤ t') :
    otpLive r t' = true → otpLive r t = true := by
  simp only [otpLive, Bool.and_eq_true, Bool.not_eq_true', decide_eq_true_eq]
  exact fun ⟨h1, h2⟩ => ⟨h1, by omega⟩

lemma pairPred_mono {e ty : String} {r : OtpRec} {t t' : Nat} (h : t ≤ t') :
    pairPred e ty t' r = true → pairPred e ty t r = true := by
  simp only [pairPred, Bool.and_eq_true]
  exact fun ⟨⟨h1, h2⟩, h3⟩ => ⟨⟨h1, h2⟩, otpLive_mono h h3⟩

lemma otpMatchesPair_mono {email otype : String} {r : OtpRec} {t t' : Nat} (h : t ≤ t') :
    otpMatchesPair r email otype t' = true → otpMatchesPair r email otype t = true := by
  simp only [otpMatchesPair, Bool.and_eq_true]
  exact fun ⟨⟨h1, h2⟩, h3⟩ => ⟨⟨h1, h2⟩, otpLive_mono h h3⟩

/-! ### The at-most-one-live-code invariant -/

/-- For every (stored email, type) pair, at most one unused, unexpired row. -/
def OtpInv (store : List OtpRec) (now : Nat) : Prop :=
  ∀ e ty : String, store.countP (pairPred e ty now) ≤ 1

lemma otpInv_mono {store : List OtpRec} {t t' : Nat} (h : t ≤ t') :
    OtpInv store t → OtpInv store t' := fun hi e ty =>
  le_trans (List.countP_mono_left fun _r _ hr => pairPred_mono h hr) (hi e ty)

lemma pairPred_eq_matchesPair (email otype : String) (now : Nat) (r : OtpRec) :
    pairPred (lowerStr email) otype now r = otpMatchesPair r email otype now := rfl

lemma otpInv_create {store : List OtpRec} {now : Nat} (hi : OtpInv store now)
    (email otype code : String) (expiry : Nat) :
    OtpInv (createOTP store email otype code now expiry) now := by
  intro e ty
  unfold createOTP
  rw [List.countP_append]
  by_cases hpair : e = lowerStr email ∧ ty = otype
  · obtain ⟨he, hty⟩ := hpair
    have h0 : (store.map fun r =>
        if otpMatchesPair r email otype now then { r with isUsed := true } else r).countP
        (pairPred e ty now) = 0 := by
      rw [List.countP_eq_zero]
      intro a ha
      obtain ⟨r, -, rfl⟩ := List.mem_map.mp ha
      by_cases hm : otpMatchesPair r email otype now
      · simp [hm, pairPred, otpLive]
      · rw [if_neg hm]
        subst he hty
        rw [pairPred_eq_matchesPair]
        exact fun hc => hm hc
    rw [h0, Nat.zero_add]
    exact le_trans (List.countP_le_length _) (by simp)
  · have h1 : ([newOtpRow email otype code now expiry] : List OtpRec).countP
        (pairPred e ty now) = 0 := by
      rw [List.countP_eq_zero]
      intro a ha
      rw [List.mem_singleton] at ha
      subst ha
      simp only [pairPred, newOtpRow, Bool.and_eq_true, decide_eq_true_eq]
      rintro ⟨⟨h2, h3⟩, -⟩
      exact hpair ⟨h2.symm, h3.symm⟩
    rw [h1, Nat.add_zero, List.countP_map]
    refine le_trans (le_trans (List.countP_mono_left fun r _ hr => ?_) le_rfl) (hi e ty)
    by_cases hm : otpMatchesPair r email otype now
    · rw [Function.comp_apply, if_pos hm] at hr
      exact absurd hr (by simp [pairPred, otpLive])
    · rwa [Function.comp_apply, if_neg hm] at hr

lemma otpInv_verify {store : List OtpRec} {now : Nat} (hi : OtpInv store now)
    (email code otype : String) :
    OtpInv (verifyOTP store email code otype now).2 now := by
  unfold verifyOTP
  cases h : findBest (fun r => otpMatchesCode r email code otype now) store with
  | none => exact hi
  | some p =>
    obtain ⟨i, r⟩ := p
    intro e ty
    refine le_trans (countP_set_le ?_ store i) (hi e ty)
    simp [pairPred, otpLive]

/-- The invariant holds in every reachable table state. -/
lemma otpInv_reach {store : List OtpRec} {now : Nat} (h : OtpReach store now) :
    OtpInv store now := by
  induction h with
  | init t => intro e ty; simp
  | step op hr hle ih =>
    cases op with
    | create e ty c exp => exact otpInv_create (otpInv_mono hle ih) e ty c exp
    | verify e c ty => exact otpInv_verify (otpInv_mono hle ih) e c ty
  | tick hr hle ih => exact otpInv_mono hle ih

/-- **C7.** Issuing a new code for (identity, purpose) invalidates every
outstanding one: after `createOTP`, verifying any code other than the fresh
one for that pair fails at any later time; and in every reachable table
state at most one unused, unexpired row exists per (email, type) pair. -/
theorem c7_issue_invalidates_previous (store : List OtpRec) (now : Nat)
    (h : OtpReach store now) :
    (∀ email otype code c2 expiry t2, now ≤ t2 → c2 ≠ code →
        (verifyOTP (createOTP store email otype code now expiry)
          email c2 otype t2).1.valid = false) ∧
    (∀ e ty, store.countP (pairPred e ty now) ≤ 1) := by
  refine ⟨?_, otpInv_reach h⟩
  intro email otype code c2 expiry t2 ht hc
  cases hval : (verifyOTP (createOTP store email otype code now expiry)
      email c2 otype t2).1.valid with
  | false => rfl
  | true =>
    exfalso
    obtain ⟨r, hmem, hmatch⟩ := (verifyOTP_valid_iff _ _ _ _ _).mp hval
    rcases List.mem_append.mp hmem with hmap | hnew
    · obtain ⟨r0, hr0, rfl⟩ := List.mem_map.mp hmap
      by_cases hm : otpMatchesPair r0 email otype now
      · rw [if_pos hm] at hmatch
        simp [otpMatchesCode, otpMatchesPair, otpLive] at hmatch
      · rw [if_neg hm] at hmatch
        exact hm (otpMatchesPair_mono ht ((Bool.and_eq_true _ _).mp hmatch).1)
    · rw [List.mem_singleton] at hnew
      subst hnew
      have : (newOtpRow email otype code now expiry).code = c2 :=
        of_decide_eq_true ((Bool.and_eq_true _ _).mp hmatch).2
      exact hc (this.symm.trans rfl)

/-- **C7 (witness).** From the empty table at time 0: issue `111111` for
`(U@x.com, login)`, then verifying the distinct code `222222` at time 5
fails, and the empty table trivially satisfies the at-most-one invariant. -/
theorem c7_issue_invalidates_previous_witness :
    (verifyOTP (createOTP [] "U@x.com" "login" "111111" 0 10)
        "U@x.com" "222222" "login" 5).1.valid = false ∧
      ([] : List OtpRec).countP (pairPred "u@x.com" "login" 0) ≤ 1 :=
  ⟨(c7_issue_invalidates_previous [] 0 (.init 0)).1
      "U@x.com" "login" "111111" "222222" 10 5 (by omega) (by decide),
    (c7_issue_invalidates_previous [] 0 (.init 0)).2 "u@x.com" "login"⟩

/-- **C8.** Passcode verification is single-use: in any reachable table
state, `verifyOTP` succeeds exactly when an unused, unexpired row matches
email+code+type; on success it marks the matched row used; and a repeat
`verifyOTP` with the same email, code and purpose at any later time
fails. -/
theorem c8_verify_single_use (store : List OtpRec) (now : Nat) (h : OtpReach store now)
    (email code otype : String) :
    ((verifyOTP store email code otype now).1.valid = true ↔
        ∃ r ∈ store, otpMatchesCode r email code otype now = true) ∧
    (∀ i r, findBest (fun r => otpMatchesCode r email code otype now) store = some (i, r) →
        (verifyOTP store email code otype now).2 = store.set i { r with isUsed := true }) ∧
    (∀ t2, now ≤ t2 → (verifyOTP store email code otype now).1.valid = true →
        (verifyOTP (verifyOTP store email code otype now).2 email code otype t2).1.valid
          = false) := by
  refine ⟨verifyOTP_valid_iff store email code otype now, ?_, ?_⟩
  · intro i r hfb
    simp only [verifyOTP, hfb]
  · intro t2 ht hval
    cases hfb : findBest (fun r => otpMatchesCode r email code otype now) store with
    | none =>
      simp only [verifyOTP, hfb, invalidOtpResult] at hval
      exact Bool.noConfusion hval
    | some p =>
      obtain ⟨i, r⟩ := p
      obtain ⟨hi, hmatch⟩ := findBest_some hfb
      have hilt : i < store.length := (List.getElem?_eq_some.mp hi).1
      have hstore2 : (verifyOTP store email code otype now).2 =
          store.set i { r with isUsed := true } := by
        simp only [verifyOTP, hfb]
      rw [hstore2]
      cases hval2 : (verifyOTP (store.set i { r with isUsed := true })
          email code otype t2).1.valid with
      | false => rfl
      | true =>
        exfalso
        obtain ⟨r2, hmem2, hm2⟩ := (verifyOTP_valid_iff _ _ _ _ _).mp hval2
        obtain ⟨j, hj⟩ := List.mem_iff_getElem?.mp hmem2
        by_cases hij : j = i
        · subst hij
          rw [List.getElem?_set_eq_of_lt _ hilt] at hj
          injection hj with hj'
          subst hj'
          simp [otpMatchesCode, otpMatchesPair, otpLive] at hm2
        · rw [List.getElem?_set_ne (fun hc => hij hc.symm)] at hj
          have hp2 : pairPred (lowerStr email) otype now r2 := by
            rw [pairPred_eq_matchesPair]
            exact otpMatchesPair_mono ht ((Bool.and_eq_true _ _).mp hm2).1
          have hp1 : pairPred (lowerStr email) otype now r := by
            rw [pairPred_eq_matchesPair]
            exact ((Bool.and_eq_true _ _).mp hmatch).1
          have h2le := two_le_countP (fun hc => hij hc.symm) hi hj hp1 hp2
          have h1le := otpInv_reach h (lowerStr email) otype
          omega

/-- **C8 (witness).** A freshly issued code `123456` verifies successfully
at time 0, and replaying the same code at time 1 fails. -/
theorem c8_verify_single_use_witness :
    (verifyOTP (createOTP [] "u@x.com" "login" "123456" 0 10)
        "u@x.com" "123456" "login" 0).1.valid = true ∧
      (verifyOTP (verifyOTP (createOTP [] "u@x.com" "login" "123456" 0 10)
          "u@x.com" "123456" "login" 0).2 "u@x.com" "123456" "login" 1).1.valid = false :=
  ⟨by decide,
    (c8_verify_single_use (createOTP [] "u@x.com" "login" "123456" 0 10) 0
        (.step (OtpOp.create "u@x.com" "login" "123456" 10) (.init 0) (Nat.le_refl 0))
        "u@x.com" "123456" "login").2.2 1 (by omega) (by decide)⟩

/-- A table with one already-used row and one expired row, for exercising
the failure cases of `verifyOTP`. -/
def demoOtpStore : List OtpRec :=
  [{ email := "u@x.com", code := "123456", otype := "login",
     expiresAt := 10, isUsed := true, createdAt := 0 },
   { email := "u@x.com", code := "654321", otype := "login",
     expiresAt := 3, isUsed := false, createdAt := 1 }]

/-- **C9.** Every failing `verifyOTP` — wrong code, expired, already used,
or no row at all for the pair — returns the same result: `valid = false`
with the one generic message, and leaves the table untouched; failure
happens exactly when no unused, unexpired row matches email+code+type, so
the output never reveals which cause applied. -/
theorem c9_failure_indistinguishable (store : List OtpRec) (email code otype : String)
    (now : Nat) :
    ((verifyOTP store email code otype now).1.valid = false ↔
        ∀ r ∈ store, otpMatchesCode r email code otype now = false) ∧
    ((verifyOTP store email code otype now).1.valid = false →
        (verifyOTP store email code otype now).1 = invalidOtpResult ∧
        (verifyOTP store email code otype now).2 = store) := by
  cases hfb : findBest (fun r => otpMatchesCode r email code otype now) store with
  | none =>
    refine ⟨⟨fun _ => findBest_none.mp hfb, fun _ => ?_⟩, fun _ => ?_⟩
    · simp only [verifyOTP, hfb]
      rfl
    · simp [verifyOTP, hfb]
  | some p =>
    obtain ⟨i, r⟩ := p
    obtain ⟨hi, hmatch⟩ := findBest_some hfb
    have hval : (verifyOTP store email code otype now).1.valid = true := by
      simp only [verifyOTP, hfb]
      rfl
    refine ⟨⟨fun hc => absurd hval (by simp [hc]), fun hall => ?_⟩, fun hc => ?_⟩
    · exact absurd hmatch (by simp [hall r (List.mem_iff_getElem?.mpr ⟨i, hi⟩)])
    · exact absurd hval (by simp [hc])

/-- **C9 (witness).** On the concrete table `demoOtpStore` at time 5, an
already-used code, an expired code, and a never-issued code all produce the
identical generic failure and leave the table unchanged. -/
theorem c9_failure_indistinguishable_witness :
    ((verifyOTP demoOtpStore "u@x.com" "123456" "login" 5).1 = invalidOtpResult ∧
      (verifyOTP demoOtpStore "u@x.com" "123456" "login" 5).2 = demoOtpStore) ∧
    ((verifyOTP demoOtpStore "u@x.com" "654321" "login" 5).1 = invalidOtpResult) ∧
    ((verifyOTP demoOtpStore "u@x.com" "999999" "login" 5).1 = invalidOtpResult) :=
  ⟨(c9_failure_indistinguishable demoOtpStore "u@x.com" "123456" "login" 5).2 (by decide),
    ((c9_failure_indistinguishable demoOtpStore "u@x.com" "654321" "login" 5).2 (by decide)).1,
    ((c9_failure_indistinguishable demoOtpStore "u@x.com" "999999" "login" 5).2 (by decide)).1⟩

/-!
Part 3: the Wallet Binding Verifier (`src/services/walletService.js` and the
wallet routes).  An account is the slice of the `users` table the service
touches: primary key and bound wallet address.  `web3.utils.isAddress` is
modelled as the fixed-length hex format check (`0x` + 40 hex digits); the
RPC-side checksum refinement for mixed-case addresses is outside the
embedding, and the claims only use format validity and case-insensitive
equality.
-/

/-- The `users`-table slice seen by the wallet service: `findByPk` key and
the nullable `walletAddress` column. -/
structure Account where
  uid : Nat
  walletAddress : Option String
deriving Repr, DecidableEq

/-- Hexadecimal digit, either case. -/
def isHexDigit (c : Char) : Bool :=
  (decide ('0' ≤ c) && decide (c ≤ '9')) ||
  (decide ('a' ≤ c) && decide (c ≤ 'f')) ||
  (decide ('A' ≤ c) && decide (c ≤ 'F'))

/-- `isValidWalletAddress` / `web3.utils.isAddress`: `0x` followed by exactly
40 hex digits. -/
def isValidWalletAddress (a : String) : Bool :=
  decide (a.data.length = 42) && decide (a.data.take 2 = ['0', 'x']) &&
    (a.data.drop 2).all isHexDigit

/-- The result object of `WalletService.verifyUserWallet`; fields the source
leaves `undefined` are `false` here, and the presentation-only
`registeredWallet` echo is omitted. -/
structure WalletVerifyResult where
  isValid : Bool
  isMatching : Bool
  needsRegistration : Bool
  message : String
deriving Repr, DecidableEq

/-- `WalletService.verifyUserWallet(userId, currentWalletAddress)`: fail fast
on a malformed address; `needsRegistration` when the user has no bound
wallet; otherwise compare lowercased addresses. -/
def verifyUserWallet (accounts : List Account) (userId : Nat) (current : String) :
    WalletVerifyResult :=
  if ¬ isValidWalletAddress current then
    ⟨false, false, false, "Invalid wallet address format"⟩
  else
    match accounts.find? (fun u => u.uid == userId) with
    | none => ⟨false, false, false, "User not found"⟩
    | some u =>
      match u.walletAddress with
      | none => ⟨true, false, true, "No wallet registered for this user"⟩
      | some w =>
        if lowerStr w = lowerStr current then
          ⟨true, true, false, "Wallet address matches registered wallet"⟩
        else
          ⟨true, false, false, "Wallet address does not match registered wallet"⟩

/-- Failures of `registerUserWallet` / the unregister route, one per thrown
message. -/
inductive WalletError where
  | InvalidFormat          -- "Invalid wallet address format"
  | AlreadyBoundElsewhere  -- "This wallet address is already registered by another user"
  | UserNotFound           -- "User not found"
deriving Repr, DecidableEq

/-- `WalletService.registerUserWallet(userId, walletAddress)`: validate the
format, reject if any other user already holds the lowercased address, then
store the lowercased address on the user's row.  A thrown error is
`Except.error` and leaves the table untouched. -/
def registerUserWallet (accounts : List Account) (userId : Nat) (walletAddress : String) :
    Except WalletError (List Account) :=
  if ¬ isValidWalletAddress walletAddress then .error .InvalidFormat
  else if (accounts.find? (fun u => decide (u.uid ≠ userId) &&
      decide (u.walletAddress = some (lowerStr walletAddress)))).isSome then
    .error .AlreadyBoundElsewhere
  else
    match accounts.find? (fun u => u.uid == userId) with
    | none => .error .UserNotFound
    | some _ => .ok (accounts.map fun u =>
        if u.uid = userId then { u with walletAddress := some (lowerStr walletAddress) }
        else u)

/-- `DELETE /api/wallet/unregister`: set the caller's `walletAddress` to
null. -/
def unregisterWallet (accounts : List Account) (userId : Nat) :
    Except WalletError (List Account) :=
  match accounts.find? (fun u => u.uid == userId) with
  | none => .error .UserNotFound
  | some _ => .ok (accounts.map fun u =>
      if u.uid = userId then { u with walletAddress := none } else u)

/-- Operations of the program that write the `walletAddress` column.
`createAccount` is `POST /api/auth/register` (`User.create` stores the
request-body `walletAddress` raw: not validated, not lowercased, and the
model declares no uniqueness constraint on the column — the profile/users
routes likewise `update({ walletAddress })` directly after only a format
regex).  `bind`/`unbind` are the wallet service's register/unregister;
their thrown errors change nothing. -/
inductive WalletOp where
  | createAccount (uid : Nat) (w : Option String)
  | bind (uid : Nat) (addr : String)
  | unbind (uid : Nat)

def applyWalletOp (accounts : List Account) : WalletOp → List Account
  | .createAccount uid w =>
    if (accounts.find? (fun u => u.uid == uid)).isSome then accounts
    else accounts ++ [⟨uid, w⟩]
  | .bind uid addr =>
    match registerUserWallet accounts uid addr with
    | .ok l => l
    | .error _ => accounts
  | .unbind uid =>
    match unregisterWallet accounts uid with
    | .ok l => l
    | .error _ => accounts

lemma toNat_ofNat_of_valid {n : Nat} (h : n.isValidChar) : (Char.ofNat n).toNat = n := by
  rw [Char.ofNat, dif_pos h]
  rfl

lemma char_toLower_idem (c : Char) : c.toLower.toLower = c.toLower := by
  unfold Char.toLower
  by_cases h : c.toNat ≥ 65 ∧ c.toNat ≤ 90
  · rw [if_pos h]
    have hval : (c.toNat + 32).isValidChar := Or.inl (by omega)
    rw [toNat_ofNat_of_valid hval]
    rw [if_neg (by omega)]
  · rw [if_neg h, if_neg h]

lemma lowerStr_idem (s : String) : lowerStr (lowerStr s) = lowerStr s := by
  show String.mk ((s.data.map Char.toLower).map Char.toLower)
      = String.mk (s.data.map Char.toLower)
  rw [List.map_map]
  congr 1
  exact List.map_congr_left (fun c _ => char_toLower_idem c)

/-! ### `find?` and uid-selective updates -/

lemma find_uid_map (l : List Account) (uid : Nat) (g : Account → Account)
    (hg : ∀ u, (g u).uid = u.uid) :
    (l.map fun u => if u.uid = uid then g u else u).find? (fun v => v.uid == uid) =
      (l.find? (fun v => v.uid == uid)).map g := by
  induction l with
  | nil => rfl
  | cons u us ih =>
    rw [List.map_cons]
    by_cases h : u.uid = uid
    · rw [if_pos h]
      rw [List.find?_cons_of_pos _ (by simp [hg, h]),
        List.find?_cons_of_pos _ (by simp [h]), Option.map_some']
    · rw [if_neg h]
      rw [List.find?_cons_of_neg _ (by simp [h]), List.find?_cons_of_neg _ (by simp [h]), ih]

/-! ### Inversion of the wallet operations -/

lemma registerUserWallet_ok_elim {l : List Account} {uid : Nat} {a : String}
    {l' : List Account} (h : registerUserWallet l uid a = .ok l') :
    isValidWalletAddress a = true ∧
      (∀ v ∈ l, v.uid ≠ uid → v.walletAddress ≠ some (lowerStr a)) ∧
      (∃ u, l.find? (fun v => v.uid == uid) = some u) ∧
      l' = l.map (fun u => if u.uid = uid then
        { u with walletAddress := some (lowerStr a) } else u) := by
  unfold registerUserWallet at h
  split at h
  case isTrue => exact absurd h (by simp)
  case isFalse hv =>
    split at h
    case isTrue => exact absurd h (by simp)
    case isFalse hns =>
      split at h
      case h_1 => exact absurd h (by simp)
      case h_2 u heq =>
        cases h
        have hnone : l.find? (fun v => decide (v.uid ≠ uid) &&
            decide (v.walletAddress = some (lowerStr a))) = none :=
          Option.not_isSome_iff_eq_none.mp hns
        refine ⟨by simpa using hv, ?_, ⟨u, heq⟩, rfl⟩
        intro v hv2 hne hw
        have := List.find?_eq_none.mp hnone v hv2
        simp only [Bool.and_eq_true, decide_eq_true_eq] at this
        exact this ⟨hne, hw⟩

lemma unregisterWallet_ok_elim {l : List Account} {uid : Nat} {l' : List Account}
    (h : unregisterWallet l uid = .ok l') :
    (∃ u, l.find? (fun v => v.uid == uid) = some u) ∧
      l' = l.map (fun u => if u.uid = uid then { u with walletAddress := none } else u) := by
  unfold unregisterWallet at h
  split at h
  case h_1 => exact absurd h (by simp)
  case h_2 u heq =>
    cases h
    exact ⟨⟨u, heq⟩, rfl⟩

/-- **C5.** `verifyMatch` behaviour of `verifyUserWallet`: a malformed
presented address yields `isValid = false` at once; an identity with no
bound address yields `needsRegistration = true`; otherwise `isMatching` is
exactly lowercase equality of the bound and presented addresses; after a
successful bind of `A` to `X`, `verifyMatch(X, A)` matches (the stored value
is `lowerStr A` and lowercasing is idempotent); and after an unbind,
`verifyMatch(X, A)` reports `needsRegistration = true`. -/
theorem c5_verifyMatch_spec :
    (∀ (l : List Account) (uid : Nat) (a : String), isValidWalletAddress a = false →
        (verifyUserWallet l uid a).isValid = false) ∧
    (∀ (l : List Account) (uid : Nat) (a : String) (u : Account),
        isValidWalletAddress a = true →
        l.find? (fun v => v.uid == uid) = some u → u.walletAddress = none →
        (verifyUserWallet l uid a).needsRegistration = true ∧
          (verifyUserWallet l uid a).isValid = true) ∧
    (∀ (l : List Account) (uid : Nat) (a : String) (u : Account) (w : String),
        isValidWalletAddress a = true →
        l.find? (fun v => v.uid == uid) = some u → u.walletAddress = some w →
        ((verifyUserWallet l uid a).isMatching = true ↔ lowerStr w = lowerStr a)) ∧
    (∀ (l : List Account) (uid : Nat) (a : String) (l' : List Account),
        registerUserWallet l uid a = .ok l' →
        (verifyUserWallet l' uid a).isMatching = true) ∧
    (∀ (l : List Account) (uid : Nat) (a : String) (l' : List Account),
        unregisterWallet l uid = .ok l' → isValidWalletAddress a = true →
        (verifyUserWallet l' uid a).needsRegistration = true) := by
  refine ⟨?_, ?_, ?_, ?_, ?_⟩
  · intro l uid a hva
    simp [verifyUserWallet, hva]
  · intro l uid a u hva hfind hw
    simp [verifyUserWallet, hva, hfind, hw]
  · intro l uid a u w hva hfind hw
    by_cases hlw : lowerStr w = lowerStr a <;>
      simp [verifyUserWallet, hva, hfind, hw, hlw]
  · intro l uid a l' h
    obtain ⟨hva, -, ⟨u, hu⟩, rfl⟩ := registerUserWallet_ok_elim h
    have hfind := find_uid_map l uid
      (fun u => { u with walletAddress := some (lowerStr a) }) (fun u => rfl)
    rw [hu, Option.map_some'] at hfind
    simp [verifyUserWallet, hva, hfind, lowerStr_idem]
  · intro l uid a l' h hva
    obtain ⟨⟨u, hu⟩, rfl⟩ := unregisterWallet_ok_elim h
    have hfind := find_uid_map l uid (fun u => { u with walletAddress := none }) (fun u => rfl)
    rw [hu, Option.map_some'] at hfind
    simp [verifyUserWallet, hva, hfind]

/-! ### A concrete wallet-binding run -/

/-- A well-formed, mixed-case wallet address. -/
def demoAddrUp : String := "0xABCDEF0123456789ABCDEF0123456789ABCDEF01"

/-- Accounts `1` and `2` created without wallets, none bound yet. -/
def demoAccounts0 : List Account :=
  applyWalletOp (applyWalletOp [] (.createAccount 1 none)) (.createAccount 2 none)

/-- After account `1` binds `demoAddrUp` (stored lowercased). -/
def demoAccounts : List Account := applyWalletOp demoAccounts0 (.bind 1 demoAddrUp)

/-- After account `1` unbinds again. -/
def demoAccounts2 : List Account := applyWalletOp demoAccounts (.unbind 1)

/-- **C5 (witness).** On the concrete run: a malformed address is rejected;
after the bind, the same mixed-case address matches; after the unbind, the
same call reports that registration is needed. -/
theorem c5_verifyMatch_spec_witness :
    (verifyUserWallet [] 7 "nope").isValid = false ∧
      (verifyUserWallet demoAccounts 1 demoAddrUp).isMatching = true ∧
      (verifyUserWallet demoAccounts2 1 demoAddrUp).needsRegistration = true :=
  ⟨c5_verifyMatch_spec.1 [] 7 "nope" (by decide),
    c5_verifyMatch_spec.2.2.2.1 demoAccounts0 1 demoAddrUp demoAccounts rfl,
    c5_verifyMatch_spec.2.2.2.2 demoAccounts 1 demoAddrUp demoAccounts2 rfl (by decide)⟩

/-! ### Uniqueness of wallet binding (C6) -/

/-- The `users`-table slice read by the login handlers. -/
structure UserRec where
  email : String
  password : String
  isVerified : Bool
  isActive : Bool
deriving Repr, DecidableEq

/-- `User.findActiveByEmail`: first user with the lowercased email and
`isActive: true`. -/
def findActiveByEmail (users : List UserRec) (email : String) : Option UserRec :=
  users.find? (fun u => decide (u.email = lowerStr email) && u.isActive)

/-- Off-chain auth state: the `users` and `otp_codes` tables. -/
structure AuthState where
  users : List UserRec
  otps : List OtpRec
deriving Repr, DecidableEq

/-- HTTP outcome of `POST /api/auth/verify-login`. -/
inductive LoginVerifyOutcome where
  | missingFields            -- 400 "Email and verification code are required"
  | invalidOtp               -- 400, the generic OTP failure message
  | userNotFound             -- 404 "User not found"
  | session (email : String) -- 200 "Login successful" with tokens
deriving Repr, DecidableEq

/-- `POST /api/auth/verify-login`: require both fields, verify the login
OTP, look the user up with `findActiveByEmail`, and on success issue
tokens.  The handler never reads `isVerified`. -/
def verifyLogin (st : AuthState) (email code : Option String) (now : Nat) :
    LoginVerifyOutcome × AuthState :=
  match email, code with
  | some e, some c =>
    if e = "" ∨ c = "" then (.missingFields, st)
    else
      let vr := verifyOTP st.otps e c "login" now
      if vr.1.valid then
        match findActiveByEmail st.users e with
        | none => (.userNotFound, { st with otps := vr.2 })
        | some u => (.session u.email, { st with otps := vr.2 })
      else (.invalidOtp, { st with otps := vr.2 })
  | _, _ => (.missingFields, st)

/-- HTTP outcome of `POST /api/auth/login`. -/
inductive LoginOutcome where
  | missingFields            -- 400 "Email and password are required"
  | invalidCredentials       -- 401 "Invalid credentials"
  | notVerified              -- 403 "Please verify your email address before logging in"
  | otpSent (code : String)  -- 200 "Login OTP sent to your email"
deriving Repr, DecidableEq

/-- `POST /api/auth/login`: require both fields, find the active user,
check the password, reject unverified accounts with 403 before any OTP is
created, otherwise create and send a login OTP (`gen` is the freshly drawn
code, `expiry` the configured window). -/
def login (st : AuthState) (email password : Option String) (gen : String)
    (now expiry : Nat) : LoginOutcome × AuthState :=
  match email, password with
  | some e, some p =>
    if e = "" ∨ p = "" then (.missingFields, st)
    else
      match findActiveByEmail st.users e with
      | none => (.invalidCredentials, st)
      | some u =>
        if u.password ≠ p then (.invalidCredentials, st)
        else if ¬ u.isVerified then (.notVerified, st)
        else (.otpSent gen, { st with otps := createOTP st.otps e "login" gen now expiry })
  | _, _ => (.missingFields, st)

/-- An unverified but active account holding a live login OTP. -/
def demoAuthBad : AuthState :=
  { users := [{ email := "eve@x.com", password := "pw",
                isVerified := false, isActive := true }],
    otps := [{ email := "eve@x.com", code := "123456", otype := "login",
               expiresAt := 10, isUsed := false, createdAt := 0 }] }

/-- **C4 (counterexample).** `verify-login` does not check `isVerified`: in
`demoAuthBad` the only account is unverified, yet submitting the valid
login OTP yields the `session` outcome (tokens issued). -/
theorem c4_counterexample :
    (demoAuthBad.users.map UserRec.isVerified = [false]) ∧
      (verifyLogin demoAuthBad (some "eve@x.com") (some "123456") 5).1 =
        .session "eve@x.com" :=
  ⟨rfl, by decide⟩

/-- **C4 (amended).** `verify-login` issues a session exactly on OTP
validity plus an active-account lookup, with no `isVerified` condition: a
valid login OTP yields a session whatever the account's `isVerified` flag;
an invalid OTP yields the generic 400; a missing active account yields 404.
Unverified accounts are instead rejected at the `login` step with 403,
before any login OTP is created, so through the API no login OTP ever
exists for an unverified account. -/
theorem c4_verify_login_spec :
    (∀ (st : AuthState) (e c : String) (now : Nat) (u : UserRec),
        e ≠ "" → c ≠ "" →
        (verifyOTP st.otps e c "login" now).1.valid = true →
        findActiveByEmail st.users e = some u →
        (verifyLogin st (some e) (some c) now).1 = .session u.email) ∧
    (∀ (st : AuthState) (e c : String) (now : Nat),
        e ≠ "" → c ≠ "" →
        (verifyOTP st.otps e c "login" now).1.valid = false →
        (verifyLogin st (some e) (some c) now).1 = .invalidOtp) ∧
    (∀ (st : AuthState) (e c : String) (now : Nat),
        e ≠ "" → c ≠ "" →
        (verifyOTP st.otps e c "login" now).1.valid = true →
        findActiveByEmail st.users e = none →
        (verifyLogin st (some e) (some c) now).1 = .userNotFound) ∧
    (∀ (st : AuthState) (e p : String) (gen : String) (now expiry : Nat) (u : UserRec),
        e ≠ "" → p ≠ "" →
        findActiveByEmail st.users e = some u →
        u.password = p → u.isVerified = false →
        login st (some e) (some p) gen now expiry = (.notVerified, st)) := by
  refine ⟨?_, ?_, ?_, ?_⟩
  · intro st e c now u he hc hval hfind
    simp [verifyLogin, he, hc, hval, hfind]
  · intro st e c now he hc hval
    simp [verifyLogin, he, hc, hval]
  · intro st e c now he hc hval hfind
    simp [verifyLogin, he, hc, hval, hfind]
  · intro st e p gen now expiry u he hp hfind hpw hver
    simp [login, he, hp, hfind, hpw, hver]

/-- **C4 (witness).** On `demoAuthBad`: the valid OTP produces a session
for the unverified account, and the password-correct `login` attempt for
the same account is rejected 403 with the state unchanged. -/
theorem c4_verify_login_spec_witness :
    (verifyLogin demoAuthBad (some "eve@x.com") (some "123456") 5).1 =
        .session "eve@x.com" ∧
      login demoAuthBad (some "eve@x.com") (some "pw") "777777" 5 10 =
        (.notVerified, demoAuthBad) :=
  ⟨c4_verify_login_spec.1 demoAuthBad "eve@x.com" "123456" 5
      { email := "eve@x.com", password := "pw", isVerified := false, isActive := true }
      (by decide) (by decide) (by decide) (by decide),
    c4_verify_login_spec.2.2.2 demoAuthBad "eve@x.com" "pw" "777777" 5 10
      { email := "eve@x.com", password := "pw", isVerified := false, isActive := true }
      (by decide) (by decide) (by decide) rfl rfl⟩

end BlockVote
